import Mathlib

/-!
Verification of the volwebsite volatility-analysis programs against their
natural-language specification.

Shallow embedding notes:
* Machine floating-point values are modelled by `EFloat`: either an exact
  rational (`fin q`) or one of the IEEE special values `inf`, `ninf`, `nan`.
  Arithmetic on `fin` values is exact rational arithmetic; the special values
  follow the IEEE rules used by numpy/pandas (`nan` propagates, `inf - inf =
  nan`, `x / 0` is a signed infinity for `x ≠ 0` and `nan` for `0 / 0`, ...).
* Irrational library functions (`np.sqrt`, `np.log`) are passed in as explicit
  parameters (`NumParams`); every property proved below is independent of the
  values those functions take on finite positive arguments, which is recorded
  by quantifying over the parameters.
* Source files embedded: `intraday_swing_analyzer.py` (namespace `Analyzer`)
  and `nasdaq_volatility_scanner.py` (namespace `Scanner`).
-/

/-- IEEE-style extended value: an exact rational or a special value. -/
inductive EFloat where
  | fin (q : ℚ)
  | inf
  | ninf
  | nan
  deriving DecidableEq

namespace EFloat

/-- `np.isnan`. -/
def isNaN : EFloat → Bool
  | nan => true
  | _ => false

/-- Is the value an ordinary (finite) float? -/
def isFinite : EFloat → Bool
  | fin _ => true
  | _ => false

/-- The rational carried by a finite value (`0` for the special values). -/
def toQ : EFloat → ℚ
  | fin q => q
  | _ => 0

/-- IEEE negation. -/
def neg : EFloat → EFloat
  | fin q => fin (-q)
  | inf => ninf
  | ninf => inf
  | nan => nan

/-- IEEE addition (`inf + ninf = nan`, `nan` propagates). -/
def add : EFloat → EFloat → EFloat
  | nan, _ => nan
  | _, nan => nan
  | inf, ninf => nan
  | ninf, inf => nan
  | inf, _ => inf
  | _, inf => inf
  | ninf, _ => ninf
  | _, ninf => ninf
  | fin a, fin b => fin (a + b)

/-- IEEE subtraction. -/
def sub (a b : EFloat) : EFloat := add a (neg b)

/-- IEEE multiplication (`inf * 0 = nan`). -/
def mul : EFloat → EFloat → EFloat
  | nan, _ => nan
  | _, nan => nan
  | fin a, fin b => fin (a * b)
  | fin a, inf => if 0 < a then inf else if a < 0 then ninf else nan
  | fin a, ninf => if 0 < a then ninf else if a < 0 then inf else nan
  | inf, fin b => if 0 < b then inf else if b < 0 then ninf else nan
  | ninf, fin b => if 0 < b then ninf else if b < 0 then inf else nan
  | inf, inf => inf
  | inf, ninf => ninf
  | ninf, inf => ninf
  | ninf, ninf => inf

/-- IEEE division (`x / 0` is a signed infinity for finite `x ≠ 0`,
`0 / 0 = nan`, `inf / inf = nan`, `x / inf = 0`; the dividing zero is the
positive zero produced by the source computations). -/
def div : EFloat → EFloat → EFloat
  | nan, _ => nan
  | _, nan => nan
  | inf, inf => nan
  | inf, ninf => nan
  | ninf, inf => nan
  | ninf, ninf => nan
  | inf, fin b => if b < 0 then ninf else inf
  | ninf, fin b => if b < 0 then inf else ninf
  | fin _, inf => fin 0
  | fin _, ninf => fin 0
  | fin a, fin b =>
      if b = 0 then (if 0 < a then inf else if a < 0 then ninf else nan)
      else fin (a / b)

/-- Total ordering used by numpy sorting/partitioning: `nan` sorts last,
`ninf` first. -/
def sortLe : EFloat → EFloat → Bool
  | nan, nan => true
  | _, nan => true
  | nan, _ => false
  | ninf, _ => true
  | inf, ninf => false
  | fin _, ninf => false
  | inf, inf => true
  | fin _, inf => true
  | inf, fin _ => false
  | fin a, fin b => a ≤ b

/-- Pairwise maximum as computed by `np.max` (`nan` propagates). -/
def pmax (a b : EFloat) : EFloat :=
  if a.isNaN || b.isNaN then nan else if sortLe a b then b else a

/-- Pairwise minimum as computed by `np.min` (`nan` propagates). -/
def pmin (a b : EFloat) : EFloat :=
  if a.isNaN || b.isNaN then nan else if sortLe a b then a else b

/-- Comparison of a float against a finite threshold, as evaluated by a numpy
elementwise `>` (false on `nan`). -/
def gtQ : EFloat → ℚ → Bool
  | fin a, t => t < a
  | inf, _ => true
  | ninf, _ => false
  | nan, _ => false

/-- Sum of a list of floats (exact on finite values; order-independent since
finite arithmetic is exact). -/
def sumE (l : List EFloat) : EFloat := l.foldl add (fin 0)

/-- `np.mean`. -/
def meanE (l : List EFloat) : EFloat := div (sumE l) (fin (l.length : ℚ))

/-- Ordered insertion with respect to `sortLe`. -/
def insertE (x : EFloat) : List EFloat → List EFloat
  | [] => [x]
  | y :: ys => if sortLe x y then x :: y :: ys else y :: insertE x ys

/-- Sorting as performed by `np.sort`/`np.partition` (`nan` last). -/
def sortE : List EFloat → List EFloat
  | [] => []
  | x :: xs => insertE x (sortE xs)

/-- `np.median`: `nan` if any input is `nan`, otherwise the middle of the
sorted data (mean of the two middle values for even length). -/
def medianE (l : List EFloat) : EFloat :=
  if l.any isNaN then nan
  else
    let s := sortE l
    let n := l.length
    if n = 0 then nan
    else if n % 2 = 1 then s.getD (n / 2) (fin 0)
    else div (add (s.getD (n / 2 - 1) (fin 0)) (s.getD (n / 2) (fin 0))) (fin 2)

/-- Executable floor of a rational (equal to `Int.floor`, see
`floorQ_eq_floor` below; the class-based `Int.floor` does not reduce in the
kernel). -/
def floorQ (q : ℚ) : ℤ := q.num / q.den

/-- numpy's `_lerp(a, b, t)`: computed as `b - (b-a)*(1-t)` when `t ≥ 1/2`
and as `a + (b-a)*t` otherwise (the two differ on IEEE special values). -/
def lerpE (a b : EFloat) (t : ℚ) : EFloat :=
  if 1 / 2 ≤ t then sub b (mul (sub b a) (fin (1 - t)))
  else add a (mul (sub b a) (fin t))

/-- `np.percentile` with the default linear interpolation method: `nan` if any
input is `nan`; otherwise interpolate the sorted data at virtual index
`q * (n-1) / 100`. -/
def percentileE (l : List EFloat) (q : ℚ) : EFloat :=
  if l.any isNaN then nan
  else
    let s := sortE l
    let n := l.length
    if n = 0 then nan
    else
      let pos : ℚ := q * ((n : ℚ) - 1) / 100
      let i : ℕ := (floorQ pos).toNat
      let j : ℕ := min (i + 1) (n - 1)
      lerpE (s.getD i (fin 0)) (s.getD j (fin 0)) (pos - (i : ℚ))

/-- Sample variance (`np.var` with `ddof = 1`); the square of `np.std`. -/
def sampleVarE (l : List EFloat) : EFloat :=
  let m := meanE l
  div (sumE (l.map (fun x => mul (sub x m) (sub x m)))) (fin ((l.length : ℚ) - 1))

/-- `np.sqrt`, with the finite nonnegative case delegated to the supplied
real-square-root approximation `sqrt`. -/
def sqrtE (sqrt : ℚ → ℚ) : EFloat → EFloat
  | nan => nan
  | inf => inf
  | ninf => nan
  | fin q => if q < 0 then nan else fin (sqrt q)

/-- `np.std(l, ddof=1)` = square root of the sample variance. -/
def stdE (sqrt : ℚ → ℚ) (l : List EFloat) : EFloat := sqrtE sqrt (sampleVarE l)

end EFloat

/-- The last `n` elements of a list (`l.iloc[-n:]` on a nonempty frame). -/
def lastN {α : Type} (n : ℕ) (l : List α) : List α := l.drop (l.length - n)

/-- Numeric parameters abstracting the irrational library routines: `sqrt`
models `np.sqrt` on finite nonnegative inputs and `log` models `np.log` on
finite positive inputs.  All verified properties hold for every choice. -/
structure NumParams where
  sqrt : ℚ → ℚ
  log : ℚ → ℚ

/-- A fixed instantiation of the numeric parameters, used to evaluate the
model on concrete inputs (the evaluated properties do not depend on it). -/
def numParams0 : NumParams := ⟨fun _ => 0, fun _ => 0⟩

/-- `np.log` lifted to extended floats: `nan` outside the domain, `ninf` at
zero, the supplied approximation on finite positive arguments. -/
def logE (lg : ℚ → ℚ) : EFloat → EFloat
  | EFloat.nan => EFloat.nan
  | EFloat.inf => EFloat.inf
  | EFloat.ninf => EFloat.nan
  | EFloat.fin q =>
      if q < 0 then EFloat.nan
      else if q = 0 then EFloat.ninf
      else EFloat.fin (lg q)

namespace Analyzer

/-! Embedding of `intraday_swing_analyzer.py`.

The input is modelled at daily granularity: a `Row` is one row of the
`daily_data` frame (the source's already-daily branch of
`compute_intraday_stats`; the intraday branch only differs by the pandas
resampling that produces such daily rows). -/

/-- `MIN_DAYS_REQUIRED` (source line 30). -/
def MIN_DAYS_REQUIRED : ℕ := 5

/-- `CACHE_EXPIRY_HOURS * 3600` in seconds (source line 34). -/
def CACHE_EXPIRY_SECONDS : ℤ := 3600

/-- One daily OHLC row (`open_` = the `Open` column). -/
structure Row where
  open_ : EFloat
  high : EFloat
  low : EFloat
  close : EFloat
  deriving DecidableEq

/-- A row of `daily_data` after the derived columns have been added:
the per-day intraday range and the per-day log return. -/
structure DRow where
  intradayRange : EFloat
  logReturn : EFloat
  deriving DecidableEq

/-- `IntradayRange = (High - Low) / Open * 100` (source line 248). -/
def intradayRangeOf (r : Row) : EFloat :=
  EFloat.mul (EFloat.div (EFloat.sub r.high r.low) r.open_) (EFloat.fin 100)

/-- `LogReturn = log(Close / Close.shift(1))` (source line 251); the first
row's shifted close is missing, so its log return is `nan`. -/
def logReturnsOf (lg : ℚ → ℚ) (rows : List Row) : List EFloat :=
  EFloat.nan ::
    (rows.zip rows.tail).map (fun p => logE lg (EFloat.div p.2.close p.1.close))

/-- `daily_data` with both derived columns attached. -/
def mkDRows (lg : ℚ → ℚ) (rows : List Row) : List DRow :=
  (rows.zip (logReturnsOf lg rows)).map (fun p => ⟨intradayRangeOf p.1, p.2⟩)

/-- `daily_data.dropna(subset=['IntradayRange'])` (source line 259): rows with
a `nan` range are removed; note an infinite range is kept. -/
def dropInvalid (lg : ℚ → ℚ) (rows : List Row) : List DRow :=
  (mkDRows lg rows).filter (fun d => !d.intradayRange.isNaN)

/-- `if np.isnan(v) or np.isinf(v): v = 0.0` — the per-field sanitization
used throughout `_compute_window_stats`. -/
def sanitizeE : EFloat → EFloat
  | EFloat.fin q => EFloat.fin q
  | _ => EFloat.fin 0

/-- The `WindowStats` record (the dict built at source lines 398-414). -/
structure WindowStats where
  avg_intraday_range : EFloat
  std_intraday_range : EFloat
  daily_std_dev : EFloat
  median_intraday_range : EFloat
  max_intraday_range : EFloat
  min_intraday_range : EFloat
  realized_volatility : EFloat
  consistency_score : EFloat
  swing_2pct_days : ℕ
  swing_3pct_days : ℕ
  extreme_move_days : ℕ
  ultra_extreme_move_days : ℕ
  days_in_window : ℕ
  std_dev_25th : EFloat
  std_dev_50th : EFloat
  std_dev_75th : EFloat
  std_dev_90th : EFloat
  std_dev_95th : EFloat
  std_dev_99th : EFloat
  min_range_pct : EFloat
  max_range_pct : EFloat
  range_spread_pct : EFloat
  deriving DecidableEq

/-- The unguarded body of `_compute_window_stats` (source lines 299-414),
computed for a nonempty window. -/
def windowStatsRecord (P : NumParams) (w : List DRow) : WindowStats :=
  let ranges := w.map DRow.intradayRange
  let log_returns := (w.map DRow.logReturn).filter (fun x => !x.isNaN)
  let avg_range0 := EFloat.meanE ranges
  let std_range0 :=
    if 1 < ranges.length then EFloat.stdE P.sqrt ranges else EFloat.fin 0
  let median_range := EFloat.medianE ranges
  let max_range := ranges.foldl EFloat.pmax EFloat.ninf
  let min_range := ranges.foldl EFloat.pmin EFloat.inf
  -- lines 313-316: only avg_range and std_range are sanitized here
  let avg_range := sanitizeE avg_range0
  let std_range := sanitizeE std_range0
  -- line 319: std_range has already been sanitized, so this is the identity
  let daily_std := std_range
  -- lines 322-335: percentile ladder, each entry NaN/Inf-replaced by 0.0
  let p25 := sanitizeE (EFloat.percentileE ranges 25)
  let p50 := sanitizeE (EFloat.percentileE ranges 50)
  let p75 := sanitizeE (EFloat.percentileE ranges 75)
  let p90 := sanitizeE (EFloat.percentileE ranges 90)
  let p95 := sanitizeE (EFloat.percentileE ranges 95)
  let p99 := sanitizeE (EFloat.percentileE ranges 99)
  -- lines 354-365: realized volatility; the guard `std_log > 0 and not
  -- isnan(std_log) and not isinf(std_log)` holds exactly when the std is a
  -- positive finite value
  let realized_vol :=
    if 1 < log_returns.length then
      match EFloat.stdE P.sqrt log_returns with
      | EFloat.fin s =>
          if 0 < s then
            sanitizeE (EFloat.mul (EFloat.mul (EFloat.fin s)
              (EFloat.fin (P.sqrt 252))) (EFloat.fin 100))
          else EFloat.fin 0
      | _ => EFloat.fin 0
    else EFloat.fin 0
  -- lines 367-375: consistency; std_range is sanitized, hence finite
  let consistency :=
    match std_range with
    | EFloat.fin s =>
        if 0 < s then sanitizeE (EFloat.div avg_range std_range)
        else EFloat.fin 0
    | _ => EFloat.fin 0
  -- lines 377-380: swing-day counts over SWING_THRESHOLDS = [2.0, 3.0]
  let swing2 := ranges.countP (fun r => r.gtQ 2)
  let swing3 := ranges.countP (fun r => r.gtQ 3)
  -- lines 382-396: extreme-move counts, recomputing an unsanitized mean
  let extremes : ℕ × ℕ :=
    match std_range with
    | EFloat.fin s =>
        if 0 < s ∧ 0 < ranges.length then
          match EFloat.meanE ranges with
          | EFloat.fin m =>
              (ranges.countP (fun r => r.gtQ (m + 2 * s)),
               ranges.countP (fun r => r.gtQ (m + 3 * s)))
          | _ => (0, 0)
        else (0, 0)
    | _ => (0, 0)
  { avg_intraday_range := avg_range
    std_intraday_range := std_range
    daily_std_dev := daily_std
    median_intraday_range := median_range
    max_intraday_range := max_range
    min_intraday_range := min_range
    realized_volatility := realized_vol
    consistency_score := consistency
    swing_2pct_days := swing2
    swing_3pct_days := swing3
    extreme_move_days := extremes.1
    ultra_extreme_move_days := extremes.2
    days_in_window := w.length
    std_dev_25th := p25
    std_dev_50th := p50
    std_dev_75th := p75
    std_dev_90th := p90
    std_dev_95th := p95
    std_dev_99th := p99
    min_range_pct := min_range
    max_range_pct := max_range
    range_spread_pct := EFloat.sub max_range min_range }

/-- `_compute_window_stats` (source lines 286-414): `None` on an empty
window, otherwise the computed record. -/
def compute_window_stats (P : NumParams) (w : List DRow) : Option WindowStats :=
  if w.isEmpty then none
  else if (w.map DRow.intradayRange).isEmpty then none
  else some (windowStatsRecord P w)

/-- The per-ticker stats dict built at source lines 268-277. -/
structure TickerStats where
  ticker : String
  total_days : ℕ
  today : Option WindowStats
  last_3_days : Option WindowStats
  last_7_days : Option WindowStats
  last_30_days : Option WindowStats
  last_3_months : Option WindowStats
  last_1_year : Option WindowStats
  deriving DecidableEq

/-- `compute_intraday_stats` (source lines 206-283) on daily data: `None`
below the 5-row minimum (before and after dropping undefined ranges),
otherwise one optional `WindowStats` per window, a window being computed
only when enough filtered rows exist. -/
def compute_intraday_stats (P : NumParams) (ticker : String) (rows : List Row) :
    Option TickerStats :=
  if rows.length < MIN_DAYS_REQUIRED then none
  else
    let filtered := dropInvalid P.log rows
    if filtered.length < MIN_DAYS_REQUIRED then none
    else some {
      ticker := ticker
      total_days := filtered.length
      today := compute_window_stats P (lastN 1 filtered)
      last_3_days :=
        if 3 ≤ filtered.length then compute_window_stats P (lastN 3 filtered)
        else none
      last_7_days :=
        if 7 ≤ filtered.length then compute_window_stats P (lastN 7 filtered)
        else none
      last_30_days :=
        if 30 ≤ filtered.length then compute_window_stats P (lastN 30 filtered)
        else none
      last_3_months :=
        if 60 ≤ filtered.length then compute_window_stats P (lastN 90 filtered)
        else none
      last_1_year :=
        if 180 ≤ filtered.length then compute_window_stats P (lastN 252 filtered)
        else none }

/-- One entry of the result cache: `{'timestamp': ..., 'stats': ...}`
(source lines 447-450), with the ISO timestamp modelled in seconds. -/
structure CacheEntry where
  timestamp : ℤ
  stats : Option TickerStats
  deriving DecidableEq

/-- The in-memory cache dict, ticker symbol to entry. -/
def Cache : Type := String → Option CacheEntry

/-- `cache[ticker] = entry`. -/
def cacheInsert (cache : Cache) (tk : String) (e : CacheEntry) : Cache :=
  fun t => if t = tk then some e else cache t

/-- The empty cache. -/
def emptyCache : Cache := fun _ => none

/-- The outcome of one `process_ticker` call: the returned stats, the cache
afterwards, and whether a network fetch was performed. -/
structure ProcessOutcome where
  result : Option TickerStats
  cache : Cache
  fetched : Bool

/-- `process_ticker` (source lines 417-456).  `fetch` is the data the
provider would return for this ticker (`none` = fetch failure).  On a fresh
cache hit the cached stats are returned with no fetch; on a miss the data is
fetched, a failed fetch returns `None` without touching the cache, and a
successful fetch stores `{'timestamp': now, 'stats': stats}` even when the
computed stats are `None`. -/
def process_ticker (P : NumParams) (fetch : Option (List Row)) (tk : String)
    (cache : Cache) (now : ℤ) : ProcessOutcome :=
  let fresh : ProcessOutcome :=
    match fetch with
    | none => ⟨none, cache, true⟩
    | some data =>
        let stats := compute_intraday_stats P tk data
        ⟨stats, cacheInsert cache tk ⟨now, stats⟩, true⟩
  match cache tk with
  | some entry =>
      if now - entry.timestamp < CACHE_EXPIRY_SECONDS then
        ⟨entry.stats, cache, false⟩
      else fresh
  | none => fresh

end Analyzer

namespace CacheFormat

/-! Model of the cache persistence format (`save_cache`/`load_cache`,
source lines 634-683).  A `WindowStats` record is serialized by first
converting numpy scalars to native Python ints/floats
(`_convert_numpy_types`, value-preserving) and then JSON-encoding the
resulting flat dict.  Python's `json` module writes floats with `repr`,
which round-trips every binary64 value exactly, and with `allow_nan=True`
writes the special values as `NaN`/`Infinity`/`-Infinity`, which
`json.load` parses back; so the encode/decode pair is modelled at the
value level as a flat JSON object. -/

/-- A leaf JSON value of the cache file: a Python float or int. -/
inductive JLeaf where
  | jnum (x : EFloat)
  | jint (n : ℤ)
  deriving DecidableEq

/-- The serialized form of one `WindowStats`: a flat JSON object. -/
def JObj : Type := List (String × JLeaf)

open Analyzer in
/-- Serialization of a `WindowStats` dict (the key set of source lines
398-414; counts are ints after `_convert_numpy_types`, everything else a
float). -/
def windowStatsToJson (w : WindowStats) : JObj := [
  ("avg_intraday_range", JLeaf.jnum w.avg_intraday_range),
  ("std_intraday_range", JLeaf.jnum w.std_intraday_range),
  ("daily_std_dev", JLeaf.jnum w.daily_std_dev),
  ("median_intraday_range", JLeaf.jnum w.median_intraday_range),
  ("max_intraday_range", JLeaf.jnum w.max_intraday_range),
  ("min_intraday_range", JLeaf.jnum w.min_intraday_range),
  ("realized_volatility", JLeaf.jnum w.realized_volatility),
  ("consistency_score", JLeaf.jnum w.consistency_score),
  ("swing_2pct_days", JLeaf.jint (w.swing_2pct_days : ℤ)),
  ("swing_3pct_days", JLeaf.jint (w.swing_3pct_days : ℤ)),
  ("extreme_move_days", JLeaf.jint (w.extreme_move_days : ℤ)),
  ("ultra_extreme_move_days", JLeaf.jint (w.ultra_extreme_move_days : ℤ)),
  ("days_in_window", JLeaf.jint (w.days_in_window : ℤ)),
  ("std_dev_25th", JLeaf.jnum w.std_dev_25th),
  ("std_dev_50th", JLeaf.jnum w.std_dev_50th),
  ("std_dev_75th", JLeaf.jnum w.std_dev_75th),
  ("std_dev_90th", JLeaf.jnum w.std_dev_90th),
  ("std_dev_95th", JLeaf.jnum w.std_dev_95th),
  ("std_dev_99th", JLeaf.jnum w.std_dev_99th),
  ("min_range_pct", JLeaf.jnum w.min_range_pct),
  ("max_range_pct", JLeaf.jnum w.max_range_pct),
  ("range_spread_pct", JLeaf.jnum w.range_spread_pct)]

/-- Field lookup in a decoded JSON object. -/
def jlookup (l : JObj) (k : String) : Option JLeaf :=
  (l.find? (fun p => p.1 = k)).map Prod.snd

/-- Read a float field. -/
def jnumField (l : JObj) (k : String) : Option EFloat :=
  match jlookup l k with
  | some (JLeaf.jnum x) => some x
  | _ => none

/-- Read a (nonnegative) int field. -/
def jnatField (l : JObj) (k : String) : Option ℕ :=
  match jlookup l k with
  | some (JLeaf.jint n) => if 0 ≤ n then some n.toNat else none
  | _ => none

/-- Decoded float fields, first group (eight summary metrics). -/
def jsonGroup1 (l : JObj) :
    Option (EFloat × EFloat × EFloat × EFloat × EFloat × EFloat × EFloat × EFloat) := do
  let avg ← jnumField l "avg_intraday_range"
  let std ← jnumField l "std_intraday_range"
  let dsd ← jnumField l "daily_std_dev"
  let med ← jnumField l "median_intraday_range"
  let mx ← jnumField l "max_intraday_range"
  let mn ← jnumField l "min_intraday_range"
  let rv ← jnumField l "realized_volatility"
  let cs ← jnumField l "consistency_score"
  pure (avg, std, dsd, med, mx, mn, rv, cs)

/-- Decoded int fields (the five day counts). -/
def jsonGroup2 (l : JObj) : Option (ℕ × ℕ × ℕ × ℕ × ℕ) := do
  let s2 ← jnatField l "swing_2pct_days"
  let s3 ← jnatField l "swing_3pct_days"
  let ex ← jnatField l "extreme_move_days"
  let ux ← jnatField l "ultra_extreme_move_days"
  let dw ← jnatField l "days_in_window"
  pure (s2, s3, ex, ux, dw)

/-- Decoded float fields, second group (ladder and range block). -/
def jsonGroup3 (l : JObj) :
    Option (EFloat × EFloat × EFloat × EFloat × EFloat × EFloat × EFloat × EFloat × EFloat) := do
  let p25 ← jnumField l "std_dev_25th"
  let p50 ← jnumField l "std_dev_50th"
  let p75 ← jnumField l "std_dev_75th"
  let p90 ← jnumField l "std_dev_90th"
  let p95 ← jnumField l "std_dev_95th"
  let p99 ← jnumField l "std_dev_99th"
  let mnp ← jnumField l "min_range_pct"
  let mxp ← jnumField l "max_range_pct"
  let sp ← jnumField l "range_spread_pct"
  pure (p25, p50, p75, p90, p95, p99, mnp, mxp, sp)

open Analyzer in
/-- Deserialization of a `WindowStats` record from a decoded JSON object. -/
def windowStatsFromJson (l : JObj) : Option WindowStats := do
  let (avg, std, dsd, med, mx, mn, rv, cs) ← jsonGroup1 l
  let (s2, s3, ex, ux, dw) ← jsonGroup2 l
  let (p25, p50, p75, p90, p95, p99, mnp, mxp, sp) ← jsonGroup3 l
  pure ⟨avg, std, dsd, med, mx, mn, rv, cs, s2, s3, ex, ux, dw,
        p25, p50, p75, p90, p95, p99, mnp, mxp, sp⟩

end CacheFormat

namespace Scanner

/-! Embedding of `nasdaq_volatility_scanner.py`. -/

/-- `MIN_BARS_REQUIRED` (source line 28). -/
def MIN_BARS_REQUIRED : ℕ := 100

/-- `VOLATILITY_WINDOW_DAYS` (source line 27). -/
def VOLATILITY_WINDOW_DAYS : ℕ := 20

/-- `Z_SCORE_THRESHOLD` (source line 29). -/
def Z_SCORE_THRESHOLD : ℚ := 2

/-- `ALERT_COOLDOWN_HOURS` in seconds (source line 30). -/
def ALERT_COOLDOWN_SECONDS : ℤ := 3600

/-- `np.mean` over exact rationals. -/
def mean (l : List ℚ) : ℚ := l.sum / l.length

/-- Sample variance (`np.var(l, ddof=1)`), the square of
`np.std(l, ddof=1)` used by the scanner. -/
def sampleVar (l : List ℚ) : ℚ :=
  (l.map (fun x => (x - mean l) ^ 2)).sum / ((l.length : ℚ) - 1)

/-- The `stats` dict of `compute_zscore` (source lines 279-286); the
standard deviation field is carried as its square (`variance_return`) so
that everything stays rational. -/
structure ZScoreStats where
  mean_return : ℚ
  variance_return : ℚ
  current_return : ℚ
  current_price : ℚ
  previous_price : ℚ
  bars_used : ℕ
  deriving DecidableEq

/-- The result triple of `compute_zscore`.  The actual z-score equals
`z_numerator / sqrt variance_return`; claims proved about `compute_zscore`
only concern when the result is defined, so the irrational square root is
not materialized. -/
structure ZScoreResult where
  z_numerator : ℚ
  percent_move : ℚ
  stats : ZScoreStats
  deriving DecidableEq

/-- `np.diff(np.log(closes))` with `np.log` modelled by `lg`; inputs are
the finite positive closes of the fetched bars. -/
def logReturns (lg : ℚ → ℚ) (closes : List ℚ) : List ℚ :=
  (closes.zip closes.tail).map (fun p => lg p.2 - lg p.1)

/-- The rolling window size `min(len(log_returns), 20 * 78)` (source
line 252). -/
def windowSize (lg : ℚ → ℚ) (closes : List ℚ) : ℕ :=
  min (logReturns lg closes).length (VOLATILITY_WINDOW_DAYS * 78)

/-- The trailing returns used for the volatility estimate. -/
def recentReturns (lg : ℚ → ℚ) (closes : List ℚ) : List ℚ :=
  lastN (windowSize lg closes) (logReturns lg closes)

/-- `compute_zscore` (source lines 229-292): `None` when fewer bars than
`MIN_BARS_REQUIRED`, fewer log returns than `MIN_BARS_REQUIRED`, a rolling
window below 50 returns, or a zero (or undefined) trailing standard
deviation; for exact finite inputs `std == 0 or isnan(std)` holds exactly
when the sample variance is `0`. -/
def compute_zscore (lg : ℚ → ℚ) (closes : List ℚ) : Option ZScoreResult :=
  if closes.length < MIN_BARS_REQUIRED then none
  else
    let lrs := logReturns lg closes
    if lrs.length < MIN_BARS_REQUIRED then none
    else if windowSize lg closes < 50 then none
    else
      let recent := recentReturns lg closes
      let mean_return := mean recent
      let variance := sampleVar recent
      if variance = 0 then none
      else
        let current_return := lrs.getLastD 0
        let current_price := closes.getLastD 0
        let previous_price := closes.dropLast.getLastD 0
        let percent_move :=
          if 2 ≤ closes.length then
            (current_price - previous_price) / previous_price * 100
          else 0
        some ⟨current_return - mean_return, percent_move,
              ⟨mean_return, variance, current_return, current_price,
               previous_price, recent.length⟩⟩

/-- One alert dict (source lines 385-391), timestamps in seconds. -/
structure Alert where
  ticker : String
  zscore : ℚ
  percent_move : ℚ
  timestamp : ℤ
  deriving DecidableEq

/-- The in-memory cooldown ledger `self.alert_history`. -/
def AlertHistory : Type := String → Option ℤ

/-- The ledger with no recorded alerts. -/
def emptyHistory : AlertHistory := fun _ => none

/-- `self.alert_history[ticker] = datetime.now()`. -/
def updateHistory (history : AlertHistory) (tk : String) (now : ℤ) :
    AlertHistory :=
  fun t => if t = tk then some now else history t

/-- The alert-decision tail of `VolatilityScanner.process_ticker` (source
lines 369-398), taking the `compute_zscore` outcome as input: `zres` is
`none` when the fetch or the z-score computation returned `None`, otherwise
`some (zscore, percent_move)`.  An alert fires only when `|Z|` strictly
exceeds the threshold and the ticker is not inside its cooldown window; a
suppressed trigger returns before the ledger update. -/
def process_ticker (history : AlertHistory) (tk : String)
    (zres : Option (ℚ × ℚ)) (now : ℤ) : Option Alert × AlertHistory :=
  match zres with
  | none => (none, history)
  | some (zscore, percent_move) =>
      if Z_SCORE_THRESHOLD < |zscore| then
        match history tk with
        | some last_alert =>
            if now - last_alert < ALERT_COOLDOWN_SECONDS then (none, history)
            else (some ⟨tk, zscore, percent_move, now⟩,
                  updateHistory history tk now)
        | none => (some ⟨tk, zscore, percent_move, now⟩,
                   updateHistory history tk now)
      else (none, history)

end Scanner

/-- Insertion sort of rationals; the all-finite specialization of
`EFloat.sortE`. -/
def sortQ (l : List ℚ) : List ℚ := List.insertionSort (· ≤ ·) l

/-- Linear interpolation of a sorted rational list at a fractional position:
the all-finite specialization of the numpy quantile computation
(`EFloat.percentileE`). -/
def interpAt (s : List ℚ) (pos : ℚ) : ℚ :=
  let i : ℕ := (EFloat.floorQ pos).toNat
  let j : ℕ := min (i + 1) (s.length - 1)
  s.getD i 0 + (pos - (i : ℚ)) * (s.getD j 0 - s.getD i 0)

/-! Concrete inputs used to evaluate the model (witnesses and
counterexamples). -/

/-- An unremarkable daily row: a 5% intraday range. -/
def nrow : Analyzer.Row := ⟨.fin 100, .fin 105, .fin 100, .fin 100⟩

/-- A degenerate daily row with `Open = 0` and `High > Low`, whose intraday
range evaluates to `(1 - 0) / 0 * 100 = inf` (not `nan`). -/
def zrow : Analyzer.Row := ⟨.fin 0, .fin 1, .fin 0, .fin 100⟩

/-- A daily series with exactly 3 valid rows. -/
def rows3 : List Analyzer.Row := List.replicate 3 nrow

/-- A daily series with exactly 5 valid rows. -/
def rows5 : List Analyzer.Row := List.replicate 5 nrow

/-- A daily series with 5 valid rows whose most recent row has `Open = 0`. -/
def rowsC2 : List Analyzer.Row := List.replicate 4 nrow ++ [zrow]

/-- A daily series with 60 valid rows. -/
def rows60 : List Analyzer.Row := List.replicate 60 nrow

/-- Placeholder record used only to destruct `Option` results of concrete
evaluations. -/
def defaultWS : Analyzer.WindowStats :=
  ⟨.fin 0, .fin 0, .fin 0, .fin 0, .fin 0, .fin 0, .fin 0, .fin 0,
   0, 0, 0, 0, 0, .fin 0, .fin 0, .fin 0, .fin 0, .fin 0, .fin 0,
   .fin 0, .fin 0, .fin 0⟩

/-- Placeholder ticker record for destructing `Option` results. -/
def defaultTS : Analyzer.TickerStats := ⟨"", 0, none, none, none, none, none, none⟩

/-- The `today` window stats computed for `rowsC2`. -/
def c2ws : Analyzer.WindowStats :=
  ((Analyzer.compute_intraday_stats numParams0 "T" rowsC2).bind
    Analyzer.TickerStats.today).getD defaultWS

/-- A 5-row window whose range values are `[5, 5, 5, 5, inf]`. -/
def wCE : List Analyzer.DRow :=
  [⟨.fin 5, .nan⟩, ⟨.fin 5, .fin 0⟩, ⟨.fin 5, .fin 0⟩, ⟨.fin 5, .fin 0⟩,
   ⟨.inf, .fin 0⟩]

/-- The window stats computed for `wCE`. -/
def ceWS : Analyzer.WindowStats :=
  (Analyzer.compute_window_stats numParams0 wCE).getD defaultWS

/-- A 5-row window with finite, distinct range values `[1, 2, 3, 4, 5]`. -/
def wFin : List Analyzer.DRow :=
  [⟨.fin 1, .nan⟩, ⟨.fin 2, .fin 0⟩, ⟨.fin 3, .fin 0⟩, ⟨.fin 4, .fin 0⟩,
   ⟨.fin 5, .fin 0⟩]

/-- The window stats computed for `wFin`. -/
def finWS : Analyzer.WindowStats :=
  (Analyzer.compute_window_stats numParams0 wFin).getD defaultWS

/-- The ticker stats computed for `rows5`. -/
def ts5 : Analyzer.TickerStats :=
  (Analyzer.compute_intraday_stats numParams0 "T" rows5).getD defaultTS

/-- The ticker stats computed for `rows60`. -/
def ts60 : Analyzer.TickerStats :=
  (Analyzer.compute_intraday_stats numParams0 "T" rows60).getD defaultTS

/-- The `last_3_months` window stats of `ts60`. -/
def m3ws60 : Analyzer.WindowStats := ts60.last_3_months.getD defaultWS

/-- The identity map, standing in for `np.log` in concrete evaluations. -/
def idQ : ℚ → ℚ := fun q => q

/-- 101 closes alternating between 1 and 2: enough bars, tick-to-tick
moves with a strictly positive sample variance. -/
def altCloses : List ℚ := (List.range 101).map (fun i => if i % 2 = 0 then 1 else 2)

/-- Far fewer closes than `MIN_BARS_REQUIRED`. -/
def shortCloses : List ℚ := [1, 2, 3]

/-- Placeholder z-score result for destructing `Option` results. -/
def defaultZ : Scanner.ZScoreResult := ⟨0, 0, ⟨0, 0, 0, 0, 0, 0⟩⟩

/-- The z-score result computed for `altCloses`. -/
def zAlt : Scanner.ZScoreResult :=
  (Scanner.compute_zscore idQ altCloses).getD defaultZ

/-! ## Theorems -/

attribute [local semireducible] Rat.add Rat.mul Rat.sub Rat.inv

set_option maxRecDepth 100000

theorem floorQ_eq_floor (q : ℚ) : EFloat.floorQ q = ⌊q⌋ := Rat.floor_def.symm

theorem floorQ_nonneg {q : ℚ} (h : 0 ≤ q) : 0 ≤ EFloat.floorQ q := by
  rw [floorQ_eq_floor]
  exact Int.floor_nonneg.mpr h

theorem toNat_floorQ_cast_le {q : ℚ} (h : 0 ≤ q) :
    (((EFloat.floorQ q).toNat : ℚ)) ≤ q := by
  rw [floorQ_eq_floor]
  have h0 : 0 ≤ ⌊q⌋ := Int.floor_nonneg.mpr h
  calc ((⌊q⌋.toNat : ℚ)) = ((⌊q⌋.toNat : ℤ) : ℚ) := by push_cast; ring
    _ = ((⌊q⌋ : ℤ) : ℚ) := by rw [Int.toNat_of_nonneg h0]
    _ ≤ q := Int.floor_le q

theorem lt_toNat_floorQ_add_one {q : ℚ} (h : 0 ≤ q) :
    q < ((EFloat.floorQ q).toNat : ℚ) + 1 := by
  rw [floorQ_eq_floor]
  have h0 : 0 ≤ ⌊q⌋ := Int.floor_nonneg.mpr h
  have hq : ((⌊q⌋.toNat : ℚ)) = ((⌊q⌋ : ℤ) : ℚ) := by
    calc ((⌊q⌋.toNat : ℚ)) = ((⌊q⌋.toNat : ℤ) : ℚ) := by push_cast; ring
      _ = ((⌊q⌋ : ℤ) : ℚ) := by rw [Int.toNat_of_nonneg h0]
  rw [hq]
  exact Int.lt_floor_add_one q

theorem toNat_floorQ_le_of_le {q : ℚ} {m : ℕ} (h : q ≤ (m : ℚ)) :
    (EFloat.floorQ q).toNat ≤ m := by
  have hz : EFloat.floorQ q ≤ (m : ℤ) := by
    rw [floorQ_eq_floor]
    calc ⌊q⌋ ≤ ⌊(m : ℚ)⌋ := Int.floor_le_floor h
      _ = (m : ℤ) := Int.floor_natCast m
  omega

theorem floorQ_toNat_mono {p1 p2 : ℚ} (h : p1 ≤ p2) :
    (EFloat.floorQ p1).toNat ≤ (EFloat.floorQ p2).toNat := by
  have : EFloat.floorQ p1 ≤ EFloat.floorQ p2 := by
    rw [floorQ_eq_floor, floorQ_eq_floor]
    exact Int.floor_le_floor h
  exact Int.toNat_le_toNat this

theorem sorted_getD_mono (s : List ℚ) (hs : List.Sorted (· ≤ ·) s)
    (a b : ℕ) (hab : a ≤ b) (hb : b < s.length) : s.getD a 0 ≤ s.getD b 0 := by
  have ha : a < s.length := lt_of_le_of_lt hab hb
  rw [List.getD_eq_getElem s 0 ha, List.getD_eq_getElem s 0 hb]
  rcases Nat.lt_or_ge a b with h | h
  · have hr := @List.Sorted.rel_get_of_lt ℚ (· ≤ ·) s hs ⟨a, ha⟩ ⟨b, hb⟩
      (Fin.mk_lt_mk.mpr h)
    simpa [List.get_eq_getElem] using hr
  · have hab' : a = b := le_antisymm hab h
    subst hab'
    exact le_refl _

theorem interpAt_def (s : List ℚ) (pos : ℚ) :
    interpAt s pos =
      s.getD ((EFloat.floorQ pos).toNat) 0 +
        (pos - (((EFloat.floorQ pos).toNat : ℕ) : ℚ)) *
          (s.getD (min ((EFloat.floorQ pos).toNat + 1) (s.length - 1)) 0 -
            s.getD ((EFloat.floorQ pos).toNat) 0) := rfl

theorem interp_cell_mono (s : List ℚ) (hs : List.Sorted (· ≤ ·) s)
    (i1 i2 : ℕ) (p1 p2 : ℚ)
    (hi1lt : i1 < s.length) (hi2lt : i2 < s.length)
    (hi12 : i1 ≤ i2)
    (_hf1lo : (i1 : ℚ) ≤ p1) (hf1hi : p1 ≤ (i1 : ℚ) + 1)
    (hf2lo : (i2 : ℚ) ≤ p2) (h12 : p1 ≤ p2) :
    s.getD i1 0 + (p1 - (i1 : ℚ)) *
        (s.getD (min (i1 + 1) (s.length - 1)) 0 - s.getD i1 0) ≤
      s.getD i2 0 + (p2 - (i2 : ℚ)) *
        (s.getD (min (i2 + 1) (s.length - 1)) 0 - s.getD i2 0) := by
  have hj1lt : min (i1 + 1) (s.length - 1) < s.length := by omega
  have hj2lt : min (i2 + 1) (s.length - 1) < s.length := by omega
  have hij1 : i1 ≤ min (i1 + 1) (s.length - 1) := by omega
  have hij2 : i2 ≤ min (i2 + 1) (s.length - 1) := by omega
  have hd1 : 0 ≤ s.getD (min (i1 + 1) (s.length - 1)) 0 - s.getD i1 0 :=
    sub_nonneg.mpr (sorted_getD_mono s hs i1 _ hij1 hj1lt)
  have hd2 : 0 ≤ s.getD (min (i2 + 1) (s.length - 1)) 0 - s.getD i2 0 :=
    sub_nonneg.mpr (sorted_getD_mono s hs i2 _ hij2 hj2lt)
  rcases Nat.lt_or_ge i1 i2 with hlt | hge
  · have hstep1 : s.getD i1 0 + (p1 - (i1 : ℚ)) *
        (s.getD (min (i1 + 1) (s.length - 1)) 0 - s.getD i1 0) ≤
        s.getD (min (i1 + 1) (s.length - 1)) 0 := by
      nlinarith [hd1]
    have hstep2 : s.getD (min (i1 + 1) (s.length - 1)) 0 ≤ s.getD i2 0 := by
      apply sorted_getD_mono s hs _ i2 _ hi2lt
      omega
    have hstep3 : s.getD i2 0 ≤ s.getD i2 0 + (p2 - (i2 : ℚ)) *
        (s.getD (min (i2 + 1) (s.length - 1)) 0 - s.getD i2 0) := by
      nlinarith [hd2]
    linarith
  · have heq : i1 = i2 := by omega
    subst heq
    have : (p1 - (i1 : ℚ)) *
        (s.getD (min (i1 + 1) (s.length - 1)) 0 - s.getD i1 0) ≤
        (p2 - (i1 : ℚ)) *
          (s.getD (min (i1 + 1) (s.length - 1)) 0 - s.getD i1 0) := by
      apply mul_le_mul_of_nonneg_right _ hd1
      linarith
    linarith

theorem interpAt_mono (s : List ℚ) (hs : List.Sorted (· ≤ ·) s) (hne : s ≠ [])
    (p1 p2 : ℚ) (h0 : 0 ≤ p1) (h12 : p1 ≤ p2) (h2 : p2 ≤ (s.length : ℚ) - 1) :
    interpAt s p1 ≤ interpAt s p2 := by
  have hlen : 1 ≤ s.length := List.length_pos.mpr hne
  have h02 : 0 ≤ p2 := le_trans h0 h12
  have h2' : p2 ≤ ((s.length - 1 : ℕ) : ℚ) := by
    rw [Nat.cast_sub hlen]
    push_cast
    linarith
  have hi2top : (EFloat.floorQ p2).toNat ≤ s.length - 1 :=
    toNat_floorQ_le_of_le h2'
  have hi12 : (EFloat.floorQ p1).toNat ≤ (EFloat.floorQ p2).toNat :=
    floorQ_toNat_mono h12
  rw [interpAt_def, interpAt_def]
  apply interp_cell_mono s hs _ _ p1 p2
  · omega
  · omega
  · exact floorQ_toNat_mono h12
  · exact toNat_floorQ_cast_le h0
  · exact le_of_lt (lt_toNat_floorQ_add_one h0)
  · exact toNat_floorQ_cast_le h02
  · exact h12

theorem isNaN_fin (q : ℚ) : (EFloat.fin q).isNaN = false := rfl

theorem any_isNaN_map_fin (l : List ℚ) :
    (l.map EFloat.fin).any EFloat.isNaN = false := by
  induction l with
  | nil => rfl
  | cons x xs ih => simp [isNaN_fin, ih]

theorem getD_map_fin (l : List ℚ) (i : ℕ) :
    (l.map EFloat.fin).getD i (EFloat.fin 0) = EFloat.fin (l.getD i 0) := by
  induction l generalizing i with
  | nil => cases i <;> rfl
  | cons x xs ih => cases i <;> simp [List.getD, ih]

theorem sortLe_fin (a b : ℚ) :
    EFloat.sortLe (EFloat.fin a) (EFloat.fin b) = decide (a ≤ b) := rfl

theorem insertE_map_fin (x : ℚ) (l : List ℚ) :
    EFloat.insertE (EFloat.fin x) (l.map EFloat.fin) =
      (List.orderedInsert (· ≤ ·) x l).map EFloat.fin := by
  induction l with
  | nil => rfl
  | cons y ys ih =>
      simp only [List.map_cons, EFloat.insertE, List.orderedInsert, sortLe_fin]
      by_cases h : x ≤ y
      · simp [h]
      · simp [h, ih]

theorem sortE_map_fin (l : List ℚ) :
    EFloat.sortE (l.map EFloat.fin) = (sortQ l).map EFloat.fin := by
  induction l with
  | nil => rfl
  | cons x xs ih =>
      simp only [List.map_cons, EFloat.sortE, sortQ, List.insertionSort, ih]
      exact insertE_map_fin x (sortQ xs)

theorem lerpE_fin (a b t : ℚ) :
    EFloat.lerpE (EFloat.fin a) (EFloat.fin b) t =
      EFloat.fin (a + (b - a) * t) := by
  unfold EFloat.lerpE
  split
  · show EFloat.fin (b + -((b + -a) * (1 - t))) = EFloat.fin (a + (b - a) * t)
    congr 1
    ring
  · show EFloat.fin (a + (b + -a) * t) = EFloat.fin (a + (b - a) * t)
    congr 1
    ring

theorem length_sortQ (l : List ℚ) : (sortQ l).length = l.length :=
  List.length_insertionSort (· ≤ ·) l

theorem sorted_sortQ (l : List ℚ) : List.Sorted (· ≤ ·) (sortQ l) :=
  List.sorted_insertionSort (· ≤ ·) l

theorem percentileE_map_fin (l : List ℚ) (hl : l ≠ []) (q : ℚ) :
    EFloat.percentileE (l.map EFloat.fin) q =
      EFloat.fin (interpAt (sortQ l) (q * ((l.length : ℚ) - 1) / 100)) := by
  have hn : l.length ≠ 0 := fun h => hl (List.length_eq_zero.mp h)
  unfold EFloat.percentileE
  rw [any_isNaN_map_fin]
  simp only [Bool.false_eq_true, if_false, List.length_map, if_neg hn,
    sortE_map_fin, getD_map_fin, lerpE_fin]
  rw [interpAt_def]
  rw [length_sortQ]
  ring_nf

theorem fin_toQ (x : EFloat) (h : x.isFinite = true) : EFloat.fin x.toQ = x := by
  cases x <;> simp [EFloat.isFinite] at h ⊢
  rfl

theorem compute_window_stats_eq (P : NumParams) (w : List Analyzer.DRow)
    (hw : w ≠ []) :
    Analyzer.compute_window_stats P w = some (Analyzer.windowStatsRecord P w) := by
  cases w with
  | nil => exact absurd rfl hw
  | cons x xs => rfl

theorem windowStatsRecord_days (P : NumParams) (w : List Analyzer.DRow) :
    (Analyzer.windowStatsRecord P w).days_in_window = w.length := rfl

theorem windowStatsRecord_p25 (P : NumParams) (w : List Analyzer.DRow) :
    (Analyzer.windowStatsRecord P w).std_dev_25th =
      Analyzer.sanitizeE
        (EFloat.percentileE (w.map Analyzer.DRow.intradayRange) 25) := rfl

theorem windowStatsRecord_p50 (P : NumParams) (w : List Analyzer.DRow) :
    (Analyzer.windowStatsRecord P w).std_dev_50th =
      Analyzer.sanitizeE
        (EFloat.percentileE (w.map Analyzer.DRow.intradayRange) 50) := rfl

theorem windowStatsRecord_p75 (P : NumParams) (w : List Analyzer.DRow) :
    (Analyzer.windowStatsRecord P w).std_dev_75th =
      Analyzer.sanitizeE
        (EFloat.percentileE (w.map Analyzer.DRow.intradayRange) 75) := rfl

theorem windowStatsRecord_p90 (P : NumParams) (w : List Analyzer.DRow) :
    (Analyzer.windowStatsRecord P w).std_dev_90th =
      Analyzer.sanitizeE
        (EFloat.percentileE (w.map Analyzer.DRow.intradayRange) 90) := rfl

theorem windowStatsRecord_p95 (P : NumParams) (w : List Analyzer.DRow) :
    (Analyzer.windowStatsRecord P w).std_dev_95th =
      Analyzer.sanitizeE
        (EFloat.percentileE (w.map Analyzer.DRow.intradayRange) 95) := rfl

theorem windowStatsRecord_p99 (P : NumParams) (w : List Analyzer.DRow) :
    (Analyzer.windowStatsRecord P w).std_dev_99th =
      Analyzer.sanitizeE
        (EFloat.percentileE (w.map Analyzer.DRow.intradayRange) 99) := rfl

theorem sanitizeE_fin (q : ℚ) : Analyzer.sanitizeE (EFloat.fin q) = EFloat.fin q := rfl

theorem toQ_fin (q : ℚ) : (EFloat.fin q).toQ = q := rfl

theorem isFinite_fin (q : ℚ) : (EFloat.fin q).isFinite = true := rfl

/-- C3 (amended): for every nonempty window whose range values are all
finite, the percentile-ladder fields of the computed `WindowStats` are
finite and monotonically non-decreasing, `p25 ≤ p50 ≤ p75 ≤ p90 ≤ p95 ≤
p99`, the NaN/Inf-to-0 replacement being the identity there.  (The original
claim, quantified over arbitrary range sets, fails when an infinite range
value is present; see the counterexample.) -/
theorem percentile_ladder_monotone (P : NumParams) (w : List Analyzer.DRow)
    (ws : Analyzer.WindowStats)
    (hfin : ∀ d ∈ w, d.intradayRange.isFinite = true)
    (h : Analyzer.compute_window_stats P w = some ws) :
    (ws.std_dev_25th.toQ ≤ ws.std_dev_50th.toQ ∧
     ws.std_dev_50th.toQ ≤ ws.std_dev_75th.toQ ∧
     ws.std_dev_75th.toQ ≤ ws.std_dev_90th.toQ ∧
     ws.std_dev_90th.toQ ≤ ws.std_dev_95th.toQ ∧
     ws.std_dev_95th.toQ ≤ ws.std_dev_99th.toQ) ∧
    (ws.std_dev_25th.isFinite = true ∧ ws.std_dev_50th.isFinite = true ∧
     ws.std_dev_75th.isFinite = true ∧ ws.std_dev_90th.isFinite = true ∧
     ws.std_dev_95th.isFinite = true ∧ ws.std_dev_99th.isFinite = true) := by
  have hw : w ≠ [] := by
    intro e
    subst e
    simp [Analyzer.compute_window_stats] at h
  rw [compute_window_stats_eq P w hw] at h
  have hws := Option.some.inj h
  subst hws
  set qs := w.map (fun d => d.intradayRange.toQ) with hqs
  have hmap : w.map Analyzer.DRow.intradayRange = qs.map EFloat.fin := by
    rw [hqs, List.map_map]
    apply List.map_congr_left
    intro d hd
    exact (fin_toQ _ (hfin d hd)).symm
  have hne : qs ≠ [] := by
    intro e
    exact hw (List.map_eq_nil_iff.mp e)
  have hlen1 : 1 ≤ qs.length := List.length_pos.mpr hne
  have hc : 0 ≤ ((qs.length : ℚ) - 1) := by
    have : (1 : ℚ) ≤ (qs.length : ℚ) := by exact_mod_cast hlen1
    linarith
  have hsne : sortQ qs ≠ [] := by
    intro e
    have := length_sortQ qs
    rw [e] at this
    simp at this
    exact hne (List.length_eq_zero.mp this.symm)
  have hstep : ∀ q1 q2 : ℚ, 0 ≤ q1 → q1 ≤ q2 → q2 ≤ 100 →
      interpAt (sortQ qs) (q1 * ((qs.length : ℚ) - 1) / 100) ≤
        interpAt (sortQ qs) (q2 * ((qs.length : ℚ) - 1) / 100) := by
    intro q1 q2 hq1 hq12 hq2
    apply interpAt_mono (sortQ qs) (sorted_sortQ qs) hsne
    · exact div_nonneg (mul_nonneg hq1 hc) (by norm_num)
    · apply div_le_div_of_nonneg_right ?hstepmul ?hstep100
      case hstepmul => exact mul_le_mul_of_nonneg_right hq12 hc
      case hstep100 => norm_num
    · rw [length_sortQ]
      rw [div_le_iff₀ (by norm_num : (0:ℚ) < 100)]
      nlinarith
  rw [windowStatsRecord_p25, windowStatsRecord_p50, windowStatsRecord_p75,
    windowStatsRecord_p90, windowStatsRecord_p95, windowStatsRecord_p99, hmap,
    percentileE_map_fin qs hne 25, percentileE_map_fin qs hne 50,
    percentileE_map_fin qs hne 75, percentileE_map_fin qs hne 90,
    percentileE_map_fin qs hne 95, percentileE_map_fin qs hne 99]
  have hql : (qs.map EFloat.fin).length = qs.length := List.length_map _ _
  simp only [hql, sanitizeE_fin, toQ_fin, isFinite_fin]
  refine ⟨⟨?_, ?_, ?_, ?_, ?_⟩, ⟨trivial, trivial, trivial, trivial, trivial, trivial⟩⟩
  · exact hstep 25 50 (by norm_num) (by norm_num) (by norm_num)
  · exact hstep 50 75 (by norm_num) (by norm_num) (by norm_num)
  · exact hstep 75 90 (by norm_num) (by norm_num) (by norm_num)
  · exact hstep 90 95 (by norm_num) (by norm_num) (by norm_num)
  · exact hstep 95 99 (by norm_num) (by norm_num) (by norm_num)

theorem lastN_length {α : Type} (n : ℕ) (l : List α) :
    (lastN n l).length = min n l.length := by
  simp [lastN]
  omega

theorem lastN_ne_nil {α : Type} (n : ℕ) (l : List α) (hn : 0 < n) (hl : l ≠ []) :
    lastN n l ≠ [] := by
  have hlen := lastN_length n l
  have hl' : 0 < l.length := List.length_pos.mpr hl
  intro h
  rw [h] at hlen
  simp only [List.length_nil] at hlen
  omega

theorem mkDRows_length (lg : ℚ → ℚ) (rows : List Analyzer.Row) :
    (Analyzer.mkDRows lg rows).length = rows.length := by
  cases rows with
  | nil => rfl
  | cons x xs =>
      simp [Analyzer.mkDRows, Analyzer.logReturnsOf]

theorem dropInvalid_length_le (lg : ℚ → ℚ) (rows : List Analyzer.Row) :
    (Analyzer.dropInvalid lg rows).length ≤ rows.length := by
  calc (Analyzer.dropInvalid lg rows).length ≤ (Analyzer.mkDRows lg rows).length :=
        List.length_filter_le _ _
    _ = rows.length := mkDRows_length lg rows

theorem compute_intraday_stats_eq (P : NumParams) (tk : String)
    (rows : List Analyzer.Row)
    (h5 : Analyzer.MIN_DAYS_REQUIRED ≤ (Analyzer.dropInvalid P.log rows).length) :
    Analyzer.compute_intraday_stats P tk rows = some {
      ticker := tk
      total_days := (Analyzer.dropInvalid P.log rows).length
      today := Analyzer.compute_window_stats P
        (lastN 1 (Analyzer.dropInvalid P.log rows))
      last_3_days :=
        if 3 ≤ (Analyzer.dropInvalid P.log rows).length then
          Analyzer.compute_window_stats P
            (lastN 3 (Analyzer.dropInvalid P.log rows))
        else none
      last_7_days :=
        if 7 ≤ (Analyzer.dropInvalid P.log rows).length then
          Analyzer.compute_window_stats P
            (lastN 7 (Analyzer.dropInvalid P.log rows))
        else none
      last_30_days :=
        if 30 ≤ (Analyzer.dropInvalid P.log rows).length then
          Analyzer.compute_window_stats P
            (lastN 30 (Analyzer.dropInvalid P.log rows))
        else none
      last_3_months :=
        if 60 ≤ (Analyzer.dropInvalid P.log rows).length then
          Analyzer.compute_window_stats P
            (lastN 90 (Analyzer.dropInvalid P.log rows))
        else none
      last_1_year :=
        if 180 ≤ (Analyzer.dropInvalid P.log rows).length then
          Analyzer.compute_window_stats P
            (lastN 252 (Analyzer.dropInvalid P.log rows))
        else none } := by
  have hle := dropInvalid_length_le P.log rows
  have hr : ¬ rows.length < Analyzer.MIN_DAYS_REQUIRED := by
    unfold Analyzer.MIN_DAYS_REQUIRED at *
    omega
  have hg : ¬ (Analyzer.dropInvalid P.log rows).length <
      Analyzer.MIN_DAYS_REQUIRED := by omega
  simp only [Analyzer.compute_intraday_stats, if_neg hr, if_neg hg]

theorem compute_intraday_stats_some_min (P : NumParams) (tk : String)
    (rows : List Analyzer.Row) (s : Analyzer.TickerStats)
    (h : Analyzer.compute_intraday_stats P tk rows = some s) :
    Analyzer.MIN_DAYS_REQUIRED ≤ (Analyzer.dropInvalid P.log rows).length := by
  simp only [Analyzer.compute_intraday_stats] at h
  by_cases h1 : rows.length < Analyzer.MIN_DAYS_REQUIRED
  · rw [if_pos h1] at h
    exact absurd h (by simp)
  · rw [if_neg h1] at h
    by_cases h2 : (Analyzer.dropInvalid P.log rows).length <
        Analyzer.MIN_DAYS_REQUIRED
    · rw [if_pos h2] at h
      exact absurd h (by simp)
    · omega

/-- C1, counterexample: for a daily series whose filtered series has exactly
3 valid rows, `compute_intraday_stats` returns `None` (the whole result is
absent), contradicting the claim that the `today` and `last_3_days` windows
are present. -/
theorem three_rows_result_absent :
    Analyzer.compute_intraday_stats numParams0 "T" rows3 = none ∧
    (Analyzer.dropInvalid numParams0.log rows3).length = 3 := by decide

/-- C1 (amended): with exactly 3 valid rows the computation returns absence
(the 5-row minimum `MIN_DAYS_REQUIRED` is not met); the claimed window
pattern — `today` and `last_3_days` present, the four longer windows
absent — holds at 5 valid rows, the smallest count the engine accepts. -/
theorem min_rows_window_presence (P : NumParams) (tk : String)
    (rows : List Analyzer.Row) :
    ((Analyzer.dropInvalid P.log rows).length = 3 →
      Analyzer.compute_intraday_stats P tk rows = none) ∧
    ((Analyzer.dropInvalid P.log rows).length = 5 →
      ∀ s, Analyzer.compute_intraday_stats P tk rows = some s →
        s.today.isSome = true ∧ s.last_3_days.isSome = true ∧
        s.last_7_days = none ∧ s.last_30_days = none ∧
        s.last_3_months = none ∧ s.last_1_year = none) ∧
    ((Analyzer.dropInvalid P.log rows).length = 5 →
      (Analyzer.compute_intraday_stats P tk rows).isSome = true) := by
  refine ⟨?_, ?_, ?_⟩
  · intro h3
    simp only [Analyzer.compute_intraday_stats]
    by_cases h1 : rows.length < Analyzer.MIN_DAYS_REQUIRED
    · rw [if_pos h1]
    · rw [if_neg h1, if_pos]
      rw [h3]
      decide
  · intro h5 s hs
    rw [compute_intraday_stats_eq P tk rows (by rw [h5]; decide)] at hs
    replace hs := Option.some.inj hs
    subst hs
    have hfne : Analyzer.dropInvalid P.log rows ≠ [] := by
      apply List.length_pos.mp
      omega
    refine ⟨?_, ?_, ?_, ?_, ?_, ?_⟩
    · show (Analyzer.compute_window_stats P
        (lastN 1 (Analyzer.dropInvalid P.log rows))).isSome = true
      rw [compute_window_stats_eq P _ (lastN_ne_nil 1 _ (by norm_num) hfne)]
      rfl
    · show (if 3 ≤ (Analyzer.dropInvalid P.log rows).length then
          Analyzer.compute_window_stats P
            (lastN 3 (Analyzer.dropInvalid P.log rows))
        else none).isSome = true
      rw [if_pos (by omega),
        compute_window_stats_eq P _ (lastN_ne_nil 3 _ (by norm_num) hfne)]
      rfl
    · show (if 7 ≤ (Analyzer.dropInvalid P.log rows).length then
          Analyzer.compute_window_stats P
            (lastN 7 (Analyzer.dropInvalid P.log rows))
        else none) = none
      rw [if_neg (by omega)]
    · show (if 30 ≤ (Analyzer.dropInvalid P.log rows).length then
          Analyzer.compute_window_stats P
            (lastN 30 (Analyzer.dropInvalid P.log rows))
        else none) = none
      rw [if_neg (by omega)]
    · show (if 60 ≤ (Analyzer.dropInvalid P.log rows).length then
          Analyzer.compute_window_stats P
            (lastN 90 (Analyzer.dropInvalid P.log rows))
        else none) = none
      rw [if_neg (by omega)]
    · show (if 180 ≤ (Analyzer.dropInvalid P.log rows).length then
          Analyzer.compute_window_stats P
            (lastN 252 (Analyzer.dropInvalid P.log rows))
        else none) = none
      rw [if_neg (by omega)]
  · intro h5
    rw [compute_intraday_stats_eq P tk rows (by rw [h5]; decide)]
    rfl

/-- C1, witness: the amended claim evaluated on concrete 3-row and 5-row
series. -/
theorem min_rows_window_presence_witness :
    Analyzer.compute_intraday_stats numParams0 "T" rows3 = none ∧
    (ts5.today.isSome = true ∧ ts5.last_3_days.isSome = true ∧
     ts5.last_7_days = none ∧ ts5.last_30_days = none ∧
     ts5.last_3_months = none ∧ ts5.last_1_year = none) := by
  constructor
  · exact (min_rows_window_presence numParams0 "T" rows3).1 (by decide)
  · exact (min_rows_window_presence numParams0 "T" rows5).2.1 (by decide)
      ts5 (by decide)

/-- C9: when `compute_intraday_stats` succeeds, the `last_3_months` window
is present exactly when the filtered series has at least 60 rows and the
`last_1_year` window exactly when it has at least 180 rows; the windows are
computed over the last 90 resp. 252 rows, so `days_in_window` is
`min 90 n` resp. `min 252 n` — smaller than the nominal window length when
fewer rows exist. -/
theorem long_window_presence (P : NumParams) (tk : String)
    (rows : List Analyzer.Row) (s : Analyzer.TickerStats)
    (h : Analyzer.compute_intraday_stats P tk rows = some s) :
    (s.last_3_months.isSome = true ↔
      60 ≤ (Analyzer.dropInvalid P.log rows).length) ∧
    (s.last_1_year.isSome = true ↔
      180 ≤ (Analyzer.dropInvalid P.log rows).length) ∧
    (∀ ws, s.last_3_months = some ws →
      ws.days_in_window = min 90 (Analyzer.dropInvalid P.log rows).length) ∧
    (∀ ws, s.last_1_year = some ws →
      ws.days_in_window = min 252 (Analyzer.dropInvalid P.log rows).length) := by
  have h5 := compute_intraday_stats_some_min P tk rows s h
  rw [compute_intraday_stats_eq P tk rows h5] at h
  replace h := Option.some.inj h
  subst h
  have hfne : Analyzer.dropInvalid P.log rows ≠ [] := by
    apply List.length_pos.mp
    unfold Analyzer.MIN_DAYS_REQUIRED at h5
    omega
  refine ⟨?_, ?_, ?_, ?_⟩
  · show (if 60 ≤ (Analyzer.dropInvalid P.log rows).length then
        Analyzer.compute_window_stats P
          (lastN 90 (Analyzer.dropInvalid P.log rows))
      else none).isSome = true ↔ 60 ≤ (Analyzer.dropInvalid P.log rows).length
    by_cases h60 : 60 ≤ (Analyzer.dropInvalid P.log rows).length
    · rw [if_pos h60,
        compute_window_stats_eq P _ (lastN_ne_nil 90 _ (by norm_num) hfne)]
      simp [h60]
    · rw [if_neg h60]
      simp [h60]
  · show (if 180 ≤ (Analyzer.dropInvalid P.log rows).length then
        Analyzer.compute_window_stats P
          (lastN 252 (Analyzer.dropInvalid P.log rows))
      else none).isSome = true ↔ 180 ≤ (Analyzer.dropInvalid P.log rows).length
    by_cases h180 : 180 ≤ (Analyzer.dropInvalid P.log rows).length
    · rw [if_pos h180,
        compute_window_stats_eq P _ (lastN_ne_nil 252 _ (by norm_num) hfne)]
      simp [h180]
    · rw [if_neg h180]
      simp [h180]
  · intro ws hws
    revert hws
    show (if 60 ≤ (Analyzer.dropInvalid P.log rows).length then
        Analyzer.compute_window_stats P
          (lastN 90 (Analyzer.dropInvalid P.log rows))
      else none) = some ws → _
    by_cases h60 : 60 ≤ (Analyzer.dropInvalid P.log rows).length
    · rw [if_pos h60,
        compute_window_stats_eq P _ (lastN_ne_nil 90 _ (by norm_num) hfne)]
      intro hws
      replace hws := Option.some.inj hws
      subst hws
      rw [windowStatsRecord_days, lastN_length]
    · rw [if_neg h60]
      intro hws
      exact absurd hws (by simp)
  · intro ws hws
    revert hws
    show (if 180 ≤ (Analyzer.dropInvalid P.log rows).length then
        Analyzer.compute_window_stats P
          (lastN 252 (Analyzer.dropInvalid P.log rows))
      else none) = some ws → _
    by_cases h180 : 180 ≤ (Analyzer.dropInvalid P.log rows).length
    · rw [if_pos h180,
        compute_window_stats_eq P _ (lastN_ne_nil 252 _ (by norm_num) hfne)]
      intro hws
      replace hws := Option.some.inj hws
      subst hws
      rw [windowStatsRecord_days, lastN_length]
    · rw [if_neg h180]
      intro hws
      exact absurd hws (by simp)

/-- C9, witness: on a 60-row series the quarterly window is present with
`days_in_window = 60` (below the nominal 90) and the yearly window is
absent. -/
theorem long_window_presence_witness :
    ts60.last_3_months.isSome = true ∧
    ts60.last_1_year.isSome = false ∧
    m3ws60.days_in_window =
      min 90 (Analyzer.dropInvalid numParams0.log rows60).length ∧
    m3ws60.days_in_window = 60 := by
  have h := long_window_presence numParams0 "T" rows60 ts60 (by decide)
  refine ⟨h.1.mpr (by decide), ?_, h.2.2.1 m3ws60 (by decide), by decide⟩
  cases hb : ts60.last_1_year.isSome with
  | false => rfl
  | true => exact absurd (h.2.1.mp hb) (by decide)

/-- C2, failing input: on a 5-row daily series whose most recent row has
`Open = 0` and `High > Low`, the per-day range `(High - Low) / Open * 100`
is `+inf`, which `dropna` does not remove (it only removes `NaN`), and
`_compute_window_stats` never sanitizes `max_intraday_range`,
`min_intraday_range`, `median_intraday_range`, `min_range_pct`,
`max_range_pct` or `range_spread_pct`: the `today` window is emitted with
infinite range fields and a `NaN` spread, contradicting the claim (and the
engine's own sanitization intent) that every numeric field is finite. -/
theorem open_zero_row_emits_infinite_fields :
    ((Analyzer.compute_intraday_stats numParams0 "T" rowsC2).bind
        Analyzer.TickerStats.today).isSome = true ∧
    c2ws.max_range_pct = EFloat.inf ∧
    c2ws.min_range_pct = EFloat.inf ∧
    c2ws.max_intraday_range = EFloat.inf ∧
    c2ws.min_intraday_range = EFloat.inf ∧
    c2ws.median_intraday_range = EFloat.inf ∧
    c2ws.range_spread_pct = EFloat.nan := by decide

/-- C3, counterexample: on a window whose ranges are `[5, 5, 5, 5, inf]`
the 25th and 50th percentiles evaluate to `5` while the 75th and higher
percentiles evaluate to `NaN` (interpolation against `inf`) and are
replaced by `0.0`, so the emitted ladder is `5, 5, 0, 0, 0, 0`:
`p50 ≤ p75` fails. -/
theorem percentile_ladder_counterexample :
    (Analyzer.compute_window_stats numParams0 wCE).isSome = true ∧
    ceWS.std_dev_25th = EFloat.fin 5 ∧
    ceWS.std_dev_50th = EFloat.fin 5 ∧
    ceWS.std_dev_75th = EFloat.fin 0 ∧
    ceWS.std_dev_90th = EFloat.fin 0 ∧
    ceWS.std_dev_95th = EFloat.fin 0 ∧
    ceWS.std_dev_99th = EFloat.fin 0 ∧
    ¬ ceWS.std_dev_50th.toQ ≤ ceWS.std_dev_75th.toQ := by decide

/-- C3, witness: the amended monotonicity claim evaluated on a concrete
finite window with ranges `[1, 2, 3, 4, 5]`. -/
theorem percentile_ladder_monotone_witness :
    finWS.std_dev_25th.toQ ≤ finWS.std_dev_50th.toQ ∧
    finWS.std_dev_95th.toQ ≤ finWS.std_dev_99th.toQ ∧
    finWS.std_dev_99th.isFinite = true := by
  have h := percentile_ladder_monotone numParams0 wFin finWS (by decide) (by decide)
  exact ⟨h.1.1, h.1.2.2.2.2, h.2.2.2.2.2.2⟩

/-- C5: serializing a `WindowStats` through the cache persistence path
(numpy-to-native conversion, then JSON encoding with exact float `repr`)
and deserializing reproduces exactly the same record — every numeric value
is preserved and no field changes kind or type. -/
theorem windowStats_roundtrip (w : Analyzer.WindowStats) :
    CacheFormat.windowStatsFromJson (CacheFormat.windowStatsToJson w) =
      some w := rfl

/-- C6: an alert decision is taken only when `|Z|` strictly exceeds the
threshold; at `|Z| = Z_SCORE_THRESHOLD` exactly, no alert is produced and
the ledger is untouched. -/
theorem boundary_zscore_no_alert (history : Scanner.AlertHistory) (tk : String)
    (z pm : ℚ) (now : ℤ) (h : |z| = Scanner.Z_SCORE_THRESHOLD) :
    Scanner.process_ticker history tk (some (z, pm)) now = (none, history) := by
  simp only [Scanner.process_ticker]
  rw [if_neg]
  rw [h]
  exact lt_irrefl _

/-- C6, witness: `Z = 2` with threshold `2` does not alert. -/
theorem boundary_zscore_no_alert_witness :
    Scanner.process_ticker Scanner.emptyHistory "AAPL" (some (2, 5)) 0 =
      (none, Scanner.emptyHistory) :=
  boundary_zscore_no_alert Scanner.emptyHistory "AAPL" 2 5 0 (by
    show |(2 : ℚ)| = Scanner.Z_SCORE_THRESHOLD
    rw [abs_of_nonneg (by norm_num : (0 : ℚ) ≤ 2)]
    rfl)

/-- C7: a first trigger outside cooldown produces an alert and records its
time; a second trigger for the same ticker within the cooldown window
produces no alert and leaves the ledger — in particular the stored time of
the first alert — unchanged. -/
theorem cooldown_suppression (history : Scanner.AlertHistory) (tk : String)
    (z1 pm1 z2 pm2 : ℚ) (t1 t2 : ℤ)
    (h0 : history tk = none)
    (hz1 : Scanner.Z_SCORE_THRESHOLD < |z1|)
    (hz2 : Scanner.Z_SCORE_THRESHOLD < |z2|)
    (hcool : t2 - t1 < Scanner.ALERT_COOLDOWN_SECONDS) :
    Scanner.process_ticker history tk (some (z1, pm1)) t1 =
      (some ⟨tk, z1, pm1, t1⟩, Scanner.updateHistory history tk t1) ∧
    Scanner.process_ticker (Scanner.updateHistory history tk t1) tk
        (some (z2, pm2)) t2 = (none, Scanner.updateHistory history tk t1) ∧
    Scanner.updateHistory history tk t1 tk = some t1 := by
  have hu : Scanner.updateHistory history tk t1 tk = some t1 := by
    simp [Scanner.updateHistory]
  refine ⟨?_, ?_, hu⟩
  · simp only [Scanner.process_ticker, if_pos hz1, h0]
  · simp only [Scanner.process_ticker, if_pos hz2, hu, if_pos hcool]

/-- C7, witness: two triggers with `|Z| = 3` ten seconds apart — the first
alerts, the second is suppressed with the ledger entry still at time 0. -/
theorem cooldown_suppression_witness :
    Scanner.process_ticker Scanner.emptyHistory "AAPL" (some (3, 1)) 0 =
      (some ⟨"AAPL", 3, 1, 0⟩,
        Scanner.updateHistory Scanner.emptyHistory "AAPL" 0) ∧
    Scanner.process_ticker
        (Scanner.updateHistory Scanner.emptyHistory "AAPL" 0) "AAPL"
        (some (3, 1)) 10 =
      (none, Scanner.updateHistory Scanner.emptyHistory "AAPL" 0) ∧
    Scanner.updateHistory Scanner.emptyHistory "AAPL" 0 "AAPL" = some 0 :=
  cooldown_suppression Scanner.emptyHistory "AAPL" 3 1 3 1 0 10 rfl
    (by show Scanner.Z_SCORE_THRESHOLD < |(3 : ℚ)|
        rw [abs_of_nonneg (by norm_num : (0 : ℚ) ≤ 3)]
        norm_num [Scanner.Z_SCORE_THRESHOLD])
    (by show Scanner.Z_SCORE_THRESHOLD < |(3 : ℚ)|
        rw [abs_of_nonneg (by norm_num : (0 : ℚ) ≤ 3)]
        norm_num [Scanner.Z_SCORE_THRESHOLD])
    (by decide)

/-- C8: on a cache miss with a successful fetch whose statistics come out
absent, `process_ticker` still writes a cache entry with the current
timestamp and `stats = None`; any later call within the expiry window
returns that absence from the cache without fetching and leaves the cache
unchanged, whatever the provider would have returned. -/
theorem negative_result_cached (P : NumParams)
    (fetch2 : Option (List Analyzer.Row)) (tk : String)
    (data : List Analyzer.Row) (cache : Analyzer.Cache) (t1 t2 : ℤ)
    (hmiss : cache tk = none)
    (hstats : Analyzer.compute_intraday_stats P tk data = none)
    (hfresh : t2 - t1 < Analyzer.CACHE_EXPIRY_SECONDS) :
    (Analyzer.process_ticker P (some data) tk cache t1).result = none ∧
    (Analyzer.process_ticker P (some data) tk cache t1).fetched = true ∧
    (Analyzer.process_ticker P (some data) tk cache t1).cache tk =
      some ⟨t1, none⟩ ∧
    (Analyzer.process_ticker P fetch2 tk
        (Analyzer.process_ticker P (some data) tk cache t1).cache t2).result =
      none ∧
    (Analyzer.process_ticker P fetch2 tk
        (Analyzer.process_ticker P (some data) tk cache t1).cache t2).fetched =
      false ∧
    (Analyzer.process_ticker P fetch2 tk
        (Analyzer.process_ticker P (some data) tk cache t1).cache t2).cache =
      (Analyzer.process_ticker P (some data) tk cache t1).cache := by
  have h1 : Analyzer.process_ticker P (some data) tk cache t1 =
      ⟨none, Analyzer.cacheInsert cache tk ⟨t1, none⟩, true⟩ := by
    simp only [Analyzer.process_ticker, hmiss, hstats]
  have hc : Analyzer.cacheInsert cache tk ⟨t1, none⟩ tk = some ⟨t1, none⟩ := by
    simp [Analyzer.cacheInsert]
  have h2 : Analyzer.process_ticker P fetch2 tk
      (Analyzer.cacheInsert cache tk ⟨t1, none⟩) t2 =
      ⟨none, Analyzer.cacheInsert cache tk ⟨t1, none⟩, false⟩ := by
    simp only [Analyzer.process_ticker, hc, if_pos hfresh]
  rw [h1]
  exact ⟨rfl, rfl, hc, by rw [h2], by rw [h2], by rw [h2]⟩

/-- C8, witness: a ticker whose 3-row fetch yields absent stats is
negatively cached at time 0; a second call at time 100 returns absence with
no fetch even though the provider would now fail. -/
theorem negative_result_cached_witness :
    (Analyzer.process_ticker numParams0 (some rows3) "T" Analyzer.emptyCache
        0).result = none ∧
    (Analyzer.process_ticker numParams0 (some rows3) "T" Analyzer.emptyCache
        0).fetched = true ∧
    (Analyzer.process_ticker numParams0 (some rows3) "T" Analyzer.emptyCache
        0).cache "T" = some ⟨0, none⟩ ∧
    (Analyzer.process_ticker numParams0 none "T"
        (Analyzer.process_ticker numParams0 (some rows3) "T"
          Analyzer.emptyCache 0).cache 100).result = none ∧
    (Analyzer.process_ticker numParams0 none "T"
        (Analyzer.process_ticker numParams0 (some rows3) "T"
          Analyzer.emptyCache 0).cache 100).fetched = false ∧
    (Analyzer.process_ticker numParams0 none "T"
        (Analyzer.process_ticker numParams0 (some rows3) "T"
          Analyzer.emptyCache 0).cache 100).cache =
      (Analyzer.process_ticker numParams0 (some rows3) "T"
        Analyzer.emptyCache 0).cache :=
  negative_result_cached numParams0 none "T" rows3 Analyzer.emptyCache 0 100
    rfl (by decide) (by decide)

theorem sampleVar_nonneg (l : List ℚ) : 0 ≤ Scanner.sampleVar l := by
  unfold Scanner.sampleVar
  rcases l with _ | ⟨x, xs⟩
  · norm_num
  · apply div_nonneg
    · apply List.sum_nonneg
      intro y hy
      simp only [List.mem_map] at hy
      obtain ⟨z, _, rfl⟩ := hy
      positivity
    · have h1 : (1 : ℚ) ≤ ((x :: xs).length : ℚ) := by
        have : 1 ≤ (x :: xs).length := by simp
        exact_mod_cast this
      linarith

theorem compute_zscore_eq_none_iff (lg : ℚ → ℚ) (closes : List ℚ) :
    Scanner.compute_zscore lg closes = none ↔
      (closes.length < Scanner.MIN_BARS_REQUIRED ∨
       (Scanner.logReturns lg closes).length < Scanner.MIN_BARS_REQUIRED ∨
       Scanner.windowSize lg closes < 50 ∨
       Scanner.sampleVar (Scanner.recentReturns lg closes) = 0) := by
  by_cases h1 : closes.length < Scanner.MIN_BARS_REQUIRED
  · simp [Scanner.compute_zscore, h1]
  · by_cases h2 : (Scanner.logReturns lg closes).length <
        Scanner.MIN_BARS_REQUIRED
    · simp [Scanner.compute_zscore, h1, h2]
    · by_cases h3 : Scanner.windowSize lg closes < 50
      · simp [Scanner.compute_zscore, h1, h2, h3]
      · by_cases h4 : Scanner.sampleVar (Scanner.recentReturns lg closes) = 0
        · simp [Scanner.compute_zscore, h1, h2, h3, h4]
        · simp [Scanner.compute_zscore, h1, h2, h3, h4]

/-- C10: `compute_zscore` returns absence whenever the input has fewer than
`MIN_BARS_REQUIRED` bars, fewer than `MIN_BARS_REQUIRED` log returns, a
trailing window of fewer than 50 returns, or a zero (for exact finite
inputs: equivalently NaN-free zero-variance) trailing standard deviation —
and conversely; whenever a result is produced its variance is strictly
positive, so the z-score division never sees a zero or undefined
denominator. -/
theorem zscore_guards (lg : ℚ → ℚ) (closes : List ℚ) :
    (Scanner.compute_zscore lg closes = none ↔
      (closes.length < Scanner.MIN_BARS_REQUIRED ∨
       (Scanner.logReturns lg closes).length < Scanner.MIN_BARS_REQUIRED ∨
       Scanner.windowSize lg closes < 50 ∨
       Scanner.sampleVar (Scanner.recentReturns lg closes) = 0)) ∧
    (∀ out, Scanner.compute_zscore lg closes = some out →
      0 < out.stats.variance_return) := by
  refine ⟨compute_zscore_eq_none_iff lg closes, ?_⟩
  intro out h
  by_cases h4 : Scanner.sampleVar (Scanner.recentReturns lg closes) = 0
  · rw [(compute_zscore_eq_none_iff lg closes).mpr
      (Or.inr (Or.inr (Or.inr h4)))] at h
    cases h
  by_cases h1 : closes.length < Scanner.MIN_BARS_REQUIRED
  · rw [(compute_zscore_eq_none_iff lg closes).mpr (Or.inl h1)] at h
    cases h
  by_cases h2 : (Scanner.logReturns lg closes).length <
      Scanner.MIN_BARS_REQUIRED
  · rw [(compute_zscore_eq_none_iff lg closes).mpr (Or.inr (Or.inl h2))] at h
    cases h
  by_cases h3 : Scanner.windowSize lg closes < 50
  · rw [(compute_zscore_eq_none_iff lg closes).mpr
      (Or.inr (Or.inr (Or.inl h3)))] at h
    cases h
  simp only [Scanner.compute_zscore, if_neg h1, if_neg h2, if_neg h3,
    if_neg h4] at h
  replace h := Option.some.inj h
  subst h
  exact lt_of_le_of_ne (sampleVar_nonneg _) (Ne.symm h4)

/-- C10, witness: a 3-bar input is rejected; a 101-bar alternating input
is accepted with variance `100/99 > 0`. -/
theorem zscore_guards_witness :
    Scanner.compute_zscore idQ shortCloses = none ∧
    (0 : ℚ) < zAlt.stats.variance_return := by
  constructor
  · exact (zscore_guards idQ shortCloses).1.mpr (Or.inl (by decide))
  · exact (zscore_guards idQ altCloses).2 zAlt (by decide)
